import Mathlib

/-!
Verification development for the KQL repository: a small SQL/JSON-hybrid
query language.  The grammar definitions below are a shallow embedding of
the parsimmon grammar in `src/index.ts`; the semantic-compiler definitions
embed `parseSelect` and its helpers from the second source file.

Modelling conventions:
* parsers are functions `List Char → Option (result × remaining input)`,
  mirroring parsimmon's backtracking ordered choice (`P.alt` retries the
  next alternative from the original position);
* JavaScript numbers are modelled as exact rationals (`ℚ`); every number
  appearing in the claims is a small integer, where float64 arithmetic is
  exact;
* remote calls made by the compiler are recorded as an ordered event list,
  and their responses are supplied by an `Env` oracle structure.
-/

set_option maxRecDepth 10000

namespace KQL

/-! ## Character classes used by the regexes in the grammar -/

/-- JS `\s` whitespace (the characters relevant to this grammar). -/
def isWsChar (c : Char) : Bool :=
  c = ' ' ∨ c = '\t' ∨ c = '\n' ∨ c = '\r' ∨ c = Char.ofNat 11 ∨ c = Char.ofNat 12

/-- Characters matched by the identifier regex `[a-zA-Z0-9-_]`. -/
def isIdentChar (c : Char) : Bool :=
  ('a' ≤ c ∧ c ≤ 'z') ∨ ('A' ≤ c ∧ c ≤ 'Z') ∨ ('0' ≤ c ∧ c ≤ '9') ∨ c = '-' ∨ c = '_'

def isDigitChar (c : Char) : Bool := '0' ≤ c ∧ c ≤ '9'

def isHexChar (c : Char) : Bool :=
  ('0' ≤ c ∧ c ≤ '9') ∨ ('a' ≤ c ∧ c ≤ 'f') ∨ ('A' ≤ c ∧ c ≤ 'F')

def hexVal (c : Char) : Nat :=
  if '0' ≤ c ∧ c ≤ '9' then c.toNat - '0'.toNat
  else if 'a' ≤ c ∧ c ≤ 'f' then c.toNat - 'a'.toNat + 10
  else c.toNat - 'A'.toNat + 10

/-- Characters not matched by JS `.` (line terminators). -/
def isLineTerm (c : Char) : Bool :=
  c = '\n' ∨ c = '\r' ∨ c = Char.ofNat 0x2028 ∨ c = Char.ofNat 0x2029

/-! ## `interpretEscapes`

The source applies `str.replace(/\\(u[0-9a-fA-F]{4}|[^u])/, fn)`.  The regex
has no `g` flag, so `String.prototype.replace` rewrites only the first
(leftmost) match and leaves the rest of the string untouched. -/

/-- The `escapes` table of `interpretEscapes`: `b,f,n,r,t` map to control
characters; any other escaped character passes through literally. -/
def escMap (c : Char) : Char :=
  match c with
  | 'b' => '\x08'
  | 'f' => '\x0c'
  | 'n' => '\n'
  | 'r' => '\r'
  | 't' => '\t'
  | other => other

/-- Try to match the part of the regex after the backslash,
`u[0-9a-fA-F]{4}|[^u]`, returning the replacement character and the input
following the match. -/
def escValue : List Char → Option (Char × List Char)
  | 'u' :: h1 :: h2 :: h3 :: h4 :: rest =>
    if isHexChar h1 ∧ isHexChar h2 ∧ isHexChar h3 ∧ isHexChar h4 then
      some (Char.ofNat (((hexVal h1 * 16 + hexVal h2) * 16 + hexVal h3) * 16 + hexVal h4), rest)
    else none
  | 'u' :: _ => none
  | c :: rest => some (escMap c, rest)
  | [] => none

/-- Core of `interpretEscapes` on character lists: find the leftmost match
of `\\(u[0-9a-fA-F]{4}|[^u])`, replace it, and leave the remainder of the
string unchanged (no `g` flag on the regex in the source). -/
def interpretEscapesL : List Char → List Char
  | [] => []
  | c :: rest =>
    if c = '\\' then
      match escValue rest with
      | some (e, rem) => e :: rem
      | none => c :: interpretEscapesL rest
    else c :: interpretEscapesL rest

/-- `interpretEscapes` from the source (applied by the `string` and `text`
parsers). -/
def interpretEscapes (s : String) : String :=
  String.mk (interpretEscapesL s.data)

/-! ## Parsimmon-style combinators -/

/-- A parser consumes a prefix of the input and yields a value plus the
remaining input, or fails. -/
abbrev Parser (α : Type) : Type := List Char → Option (α × List Char)

def ppure {α : Type} (a : α) : Parser α := fun s => some (a, s)

def pmap {α β : Type} (f : α → β) (p : Parser α) : Parser β := fun s =>
  match p s with
  | some (a, rest) => some (f a, rest)
  | none => none

def pbind {α β : Type} (p : Parser α) (f : α → Parser β) : Parser β := fun s =>
  match p s with
  | some (a, rest) => f a rest
  | none => none

/-- Ordered choice: parsimmon's `P.alt` / `.or` retries `q` from the
original position whenever `p` fails. -/
def palt {α : Type} (p q : Parser α) : Parser α := fun s =>
  match p s with
  | some r => some r
  | none => q s

/-- Sequence keeping the right result (`.then`). -/
def pthen {α β : Type} (p : Parser α) (q : Parser β) : Parser β :=
  pbind p (fun _ => q)

/-- Sequence keeping the left result (`.skip`). -/
def pskip {α β : Type} (p : Parser α) (q : Parser β) : Parser α :=
  pbind p (fun a => pthen q (ppure a))

/-- `parser.or(P.of(null))`: an optional parser. -/
def popt {α : Type} (p : Parser α) : Parser (Option α) :=
  palt (pmap some p) (ppure none)

/-- Kleene star with explicit fuel bounding the number of iterations
(every repeated parser in this grammar consumes input, so any fuel of at
least the input length gives the exact parsimmon semantics). -/
def pmany {α : Type} : Nat → Parser α → Parser (List α)
  | 0, _ => ppure []
  | fuel + 1, p => fun s =>
    match p s with
    | none => some ([], s)
    | some (a, rest) =>
      match pmany fuel p rest with
      | some (as, rest') => some (a :: as, rest')
      | none => none

/-- `p.sepBy(sep)`: one-or-more separated occurrences, or the empty list. -/
def psepBy {α β : Type} (fuel : Nat) (p : Parser α) (sep : Parser β) : Parser (List α) :=
  palt (pbind p (fun a => pmap (fun as => a :: as) (pmany fuel (pthen sep p)))) (ppure [])

/-! ## Token-level primitives -/

/-- Skip of the whitespace regex `/\s*/m`. -/
def dropWs (s : List Char) : List Char := s.dropWhile isWsChar

/-- Skip of the optional line-comment regex `--.*` (`.` stops at a line
terminator); when the input does not start with `--` nothing is consumed
(the `.or(P.of(null))` alternative). -/
def dropComment (s : List Char) : List Char :=
  match s with
  | '-' :: '-' :: rest => rest.dropWhile (fun c => ¬ isLineTerm c)
  | other => other

/-- Suffix skipping performed by `token`: `.skip(whitespace).skip(comment)`. -/
def tokenAfter (s : List Char) : List Char := dropComment (dropWs s)

/-- `token(comment)` — the `comment` parser wrapped in `token`; used as
`r.comment` and as the prefix of `word`. -/
def pCommentTok : Parser Unit := fun s =>
  some ((), dropComment (dropWs (dropComment s)))

/-- Consume an exact character sequence, returning the remaining input. -/
def exactChars : List Char → List Char → Option (List Char)
  | [], s => some s
  | a :: as, s =>
    match s with
    | [] => none
    | b :: bs => if a = b then exactChars as bs else none

/-- `P.string(str)`: exact string match. -/
def pExact (w : String) : Parser String := fun s =>
  match exactChars w.data s with
  | some rest => some (w, rest)
  | none => none

/-- `word(str) = token(comment).then(P.string(str)).thru(token)`. -/
def pWord (w : String) : Parser String :=
  pthen pCommentTok (fun s =>
    match pExact w s with
    | some (a, rest) => some (a, tokenAfter rest)
    | none => none)

/-- The `text` parser: `token(P.regexp(/[a-zA-Z0-9-_]*/)).map(interpretEscapes)`
(the identifier regex can match the empty string). -/
def pText : Parser String := fun s =>
  let ident := s.takeWhile isIdentChar
  some (interpretEscapes (String.mk ident), tokenAfter (s.drop ident.length))

/-- Lazy body scan of the string regex `(["'])((?:\\.|.)*?)(["'])` after
the opening quote, with the regex engine's backtracking: at each position
the lazy quantifier first tries to close at a quote character, then
extends via `\\.` (an escaped character, shielding an escaped quote from
closing), then via `.` (any single non-line-terminator character); when a
branch dead-ends the engine falls back to the next alternative. -/
def strBody : Nat → List Char → Option (List Char × List Char)
  | _, [] => none
  | 0, _ => none
  | fuel + 1, c :: rest =>
    if c = '"' ∨ c = '\'' then some ([], rest)
    else if c = '\\' then
      match rest with
      | d :: rest2 =>
        if ¬ isLineTerm d then
          match strBody fuel rest2 with
          | some (content, rem) => some (c :: d :: content, rem)
          | none =>
            match strBody fuel rest with
            | some (content, rem) => some (c :: content, rem)
            | none => none
        else
          match strBody fuel rest with
          | some (content, rem) => some (c :: content, rem)
          | none => none
      | [] => none
    else if ¬ isLineTerm c then
      match strBody fuel rest with
      | some (content, rem) => some (c :: content, rem)
      | none => none
    else none

/-- The `string` parser: a quote-delimited literal (the regex does *not*
require the opening and closing quote characters to match), its body piped
through `interpretEscapes`, wrapped in `token`. -/
def pStringTok : Parser String := fun s =>
  match s with
  | c :: rest =>
    if c = '"' ∨ c = '\'' then
      match strBody rest.length rest with
      | some (content, rem) =>
        some (interpretEscapes (String.mk content), tokenAfter rem)
      | none => none
    else none
  | [] => none

/-! ## The number token

The regex `-?(0|[1-9][0-9]*)([.][0-9]+)?([eE][+-]?[0-9]+)?` mapped through JS
`Number`.  Modelled as an exact rational; all numbers in the claims are
small integers, for which float64 arithmetic is exact. -/

def digitsToNat (ds : List Char) : Nat :=
  ds.foldl (fun n c => n * 10 + (c.toNat - '0'.toNat)) 0

/-- Build the rational value of a matched numeric literal
`[-]ip[.fp][e[±]ed]`: the exact value of `(ip.fp) × 10^(±ed)` with the
sign applied (expressed with integer arithmetic only). -/
def numValue (neg : Bool) (ip fp : List Char) (expNeg : Bool) (ed : List Char) : ℚ :=
  let mantissa : ℤ := (digitsToNat (ip ++ fp) : ℤ)
  let m : ℤ := if neg then -mantissa else mantissa
  let e : ℤ := (if expNeg then -(digitsToNat ed : ℤ) else (digitsToNat ed : ℤ)) - fp.length
  if 0 ≤ e then Rat.divInt (m * 10 ^ e.toNat) 1 else Rat.divInt m (10 ^ (-e).toNat)

/-- The `number` parser (wrapped in `token`). -/
def pNumberTok : Parser ℚ := fun s =>
  let (neg, s1) := match s with
    | '-' :: r => (true, r)
    | _ => (false, s)
  match s1 with
  | c :: r =>
    if c = '0' then
      let (ip, rem) := (['0'], r)
      numTail neg ip rem
    else if isDigitChar c then
      let ds := r.takeWhile isDigitChar
      numTail neg (c :: ds) (r.drop ds.length)
    else none
  | [] => none
where
  /-- Continue after the integer part: optional fraction, optional
  exponent, then the `token` suffix skip. -/
  numTail (neg : Bool) (ip : List Char) (rem : List Char) : Option (ℚ × List Char) :=
    let (fp, rem2) := match rem with
      | '.' :: r2 =>
        let ds := r2.takeWhile isDigitChar
        if ds.isEmpty then ([], rem) else (ds, r2.drop ds.length)
      | _ => ([], rem)
    let (expNeg, ed, rem3) := match rem2 with
      | e :: r4 =>
        if e = 'e' ∨ e = 'E' then
          let (sgn, r5) := match r4 with
            | '+' :: r6 => (false, r6)
            | '-' :: r6 => (true, r6)
            | _ => (false, r4)
          let ds := r5.takeWhile isDigitChar
          if ds.isEmpty then (false, [], rem2) else (sgn, ds, r5.drop ds.length)
        else (false, [], rem2)
      | [] => (false, [], rem2)
    some (numValue neg ip fp expNeg ed, tokenAfter rem3)

/-! ## Values

The tagged union produced by the `value` grammar.  Function-call
expressions are plain objects `{fnName, arguments}` in the source; they get
their own constructor here.  The named constants (`current_bounds`,
`current_points`, `current_features`) are parsed by `word(...)`, whose
result is the matched string itself, so they come out as string values. -/

inductive Value : Type
  | null : Value
  | bool (b : Bool) : Value
  | num (q : ℚ) : Value
  | str (s : String) : Value
  | obj (pairs : List (String × Value)) : Value
  | arr (vs : List Value) : Value
  | fn (fnName : String) (arguments : List Value) : Value

/-! ## JS object semantics

`object[key] = value` keeps insertion order and overwrites in place;
`delete` removes; `in` tests membership.  Objects are modelled as ordered
association lists. -/

def jsObjGet (o : List (String × Value)) (k : String) : Option Value :=
  (o.find? (fun p => p.1 = k)).map (fun p => p.2)

def jsObjInsert (o : List (String × Value)) (k : String) (v : Value) :
    List (String × Value) :=
  if (o.find? (fun p => p.1 = k)).isSome then
    o.map (fun p => if p.1 = k then (k, v) else p)
  else o ++ [(k, v)]

def jsObjDelete (o : List (String × Value)) (k : String) : List (String × Value) :=
  o.filter (fun p => ¬ p.1 = k)

def jsObjHas (o : List (String × Value)) (k : String) : Bool :=
  (jsObjGet o k).isSome

/-! ## The value grammar

`value = alt(object, array, string, number, null, true, false, fn,
constants)` prefixed by a whitespace skip.  The recursion through
containers is bounded by a fuel parameter; every recursive step consumes at
least one character, so any fuel of at least the input length is exact. -/

/-- Leading `whitespace.then(parser)` wrapper. -/
def pWsThen {α : Type} (p : Parser α) : Parser α := fun s => p (dropWs s)

def pLbrace : Parser String := pWord "\x7b"
def pRbrace : Parser String := pWord "\x7d"
def pLbracket : Parser String := pWord "["
def pRbracket : Parser String := pWord "]"
def pLParen : Parser String := pWord "("
def pRParen : Parser String := pWord ")"
def pComma : Parser String := pWord ","
def pColon : Parser String := pWord ":"
def pDot : Parser String := pWord "."
def pAnd : Parser String := pWord "and"

def pNullTok : Parser Value := pmap (fun _ => Value.null) (pWord "null")
def pTrueTok : Parser Value := pmap (fun _ => Value.bool true) (pWord "true")
def pFalseTok : Parser Value := pmap (fun _ => Value.bool false) (pWord "false")

/-- The `constants` parser: three named constants recognized via `word`,
whose parse result is the matched string. -/
def pConstants : Parser Value :=
  pmap Value.str
    (palt (pWord "current_bounds") (palt (pWord "current_points") (pWord "current_features")))

/-- `pair = seq(string.skip(colon), value)`. -/
def pPair (pv : Parser Value) : Parser (String × Value) :=
  pbind pStringTok (fun k => pthen pColon (pmap (fun v => (k, v)) pv))

/-- The `object` parser; duplicate keys keep the last occurrence, in the
original position, exactly as the `object[key] = value` loop does. -/
def pObjectWith (fuel : Nat) (pv : Parser Value) : Parser Value :=
  pbind pLbrace (fun _ =>
    pskip (pmap (fun ps => Value.obj (ps.foldl (fun o p => jsObjInsert o p.1 p.2) []))
      (psepBy fuel (pPair pv) pComma)) pRbrace)

/-- The `array` parser of `src/index.ts`: opened by `[` **or** `(` and
closed by `]` **or** `)` — both bracket styles parse identically. -/
def pArrayWith (fuel : Nat) (pv : Parser Value) : Parser Value :=
  pbind (palt pLbracket pLParen) (fun _ =>
    pskip (pmap Value.arr (psepBy fuel pv pComma)) (palt pRbracket pRParen))

/-- The `fn` parser: an identifier followed by a parenthesized argument
list. -/
def pFnWith (fuel : Nat) (pv : Parser Value) : Parser Value :=
  pbind pText (fun n =>
    pbind pLParen (fun _ =>
      pskip (pmap (Value.fn n) (psepBy fuel pv pComma)) pRParen))

/-- The `value` parser (ordered alternatives exactly as in the source). -/
def pValue : Nat → Parser Value
  | 0 => fun _ => none
  | fuel + 1 =>
    pWsThen
      (palt (pObjectWith fuel (pValue fuel))
        (palt (pArrayWith fuel (pValue fuel))
          (palt (pmap Value.str pStringTok)
            (palt (pmap Value.num pNumberTok)
              (palt pNullTok
                (palt pTrueTok
                  (palt pFalseTok
                    (palt (pFnWith fuel (pValue fuel)) pConstants))))))))

/-! ## Statement AST -/

/-- A possibly-qualified field reference (`t.id` or bare `id`). -/
structure Key where
  alias_ : Option String  -- source field name: alias (a reserved word here)
  key : String
deriving DecidableEq

/-- One `where`-list / parameter-list condition. -/
structure Cond where
  left : Key
  operator : String
  right : Value

/-- The single equality of a `join ... on` clause. -/
structure JoinCond where
  left : Key
  right : Key

/-- `{name, alias}` of a database reference. -/
structure DbRef where
  name : String
  alias_ : Option String  -- source field name: alias

/-- The `select` statement AST. -/
structure SelectAst where
  command : String
  database : DbRef
  join : Option JoinCond
  whereConds : Option (List Cond)
  limit : Option ℚ

/-- The tagged union returned by the top-level `parser`. -/
inductive Ast : Type
  | select (s : SelectAst)
  | fetch (command : String) (database : DbRef) (parameters : List Cond)
  | create (command : String) (type name : String) (parameters : Option (List Cond))
  | getConfig (command : String) (parameters : List Cond)
  | updateConfig (command : String)

/-! ## Statement grammar -/

/-- The `databaseName` alternatives, in source order. -/
def pDatabaseName : Parser String :=
  palt (pWord "tile38")
    (palt (pWord "metabase")
      (palt (pWord "url")
        (palt (pWord "t") (palt (pWord "m") (pWord "u")))))

def kqlDatabaseNames : List String := ["tile38", "metabase", "url", "t", "m", "u"]

/-- `asAlias = word("as").then(text).or(null)`. -/
def pAsAlias : Parser (Option String) := popt (pthen (pWord "as") pText)

/-- `key = seqObj(alias: text.skip(dot).or(null), key: text)`. -/
def pKey : Parser Key :=
  pbind (popt (pskip pText pDot)) (fun a => pmap (fun k => Key.mk a k) pText)

/-- The `operator` alternatives, in source order (note `=` and `>` are
tried before `>=`). -/
def pOperator : Parser String :=
  palt (pWord "=")
    (palt (pWord ">")
      (palt (pWord ">=")
        (palt (pWord "<")
          (palt (pWord "<=") (palt (pWord "in") (pWord "is"))))))

/-- `pairCondition = comment.then(seqObj(left, operator, right))`. -/
def pPairCondition (fuel : Nat) : Parser Cond :=
  pthen pCommentTok
    (pbind pKey (fun l =>
      pbind pOperator (fun op =>
        pmap (fun r => Cond.mk l op r) (pValue fuel))))

/-- `where = word("where").then(pairCondition.sepBy(and))`. -/
def pWhere (fuel : Nat) : Parser (List Cond) :=
  pthen (pWord "where") (psepBy fuel (pPairCondition fuel) pAnd)

/-- `joinCondition = seqObj(left, word("="), right)`. -/
def pJoinCondition : Parser JoinCond :=
  pbind pKey (fun l => pthen (pWord "=") (pmap (fun r => JoinCond.mk l r) pKey))

/-- `join = word("join").skip(databaseName).skip(word("on")).then(joinCondition)`:
the database name written between `join` and `on` is parsed and discarded. -/
def pJoin : Parser JoinCond :=
  pthen (pskip (pskip (pWord "join") pDatabaseName) (pWord "on")) pJoinCondition

/-- `limit = word("limit").then(number)`. -/
def pLimit : Parser ℚ := pthen (pWord "limit") pNumberTok

/-- The `select` statement parser. -/
def pSelect (fuel : Nat) : Parser Ast :=
  pWsThen
    (pskip
      (pbind (pWord "select") (fun cmd =>
        pthen (pWord "*")
          (pthen (pWord "from")
            (pbind (pbind pDatabaseName (fun n => pmap (fun a => DbRef.mk n a) pAsAlias))
              (fun db =>
                pbind (popt pJoin) (fun j =>
                  pbind (popt (pWhere fuel)) (fun w =>
                    pmap (fun lim => Ast.select (SelectAst.mk cmd db j w lim))
                      (popt pLimit))))))))
      pCommentTok)

/-- `parameters = lParenthesis.then(pairCondition.sepBy(comma)).skip(rParenthesis)`. -/
def pParameters (fuel : Nat) : Parser (List Cond) :=
  pthen pLParen (pskip (psepBy fuel (pPairCondition fuel) pComma) pRParen)

/-- The `fetch` statement parser. -/
def pFetch (fuel : Nat) : Parser Ast :=
  pWsThen
    (pskip
      (pbind (pWord "fetch") (fun cmd =>
        pbind (pbind pDatabaseName (fun n => pmap (fun a => DbRef.mk n a) pAsAlias))
          (fun db => pmap (Ast.fetch cmd db) (pParameters fuel))))
      pCommentTok)

/-- The `create` statement parser. -/
def pCreate (fuel : Nat) : Parser Ast :=
  pWsThen
    (pskip
      (pbind (pWord "create") (fun cmd =>
        pbind pText (fun ty =>
          pbind pText (fun nm =>
            pmap (Ast.create cmd ty nm) (popt (pParameters fuel))))))
      pCommentTok)

/-- The `get config` statement parser. -/
def pGetConfig (fuel : Nat) : Parser Ast :=
  pWsThen
    (pskip
      (pbind (pWord "get") (fun cmd =>
        pthen (pWord "config") (pmap (Ast.getConfig cmd) (pParameters fuel))))
      pCommentTok)

/-- The `update config` statement parser. -/
def pUpdateConfig : Parser Ast :=
  pWsThen
    (pskip
      (pbind (pWord "update") (fun cmd =>
        pmap (fun _ => Ast.updateConfig cmd) (pWord "config")))
      pCommentTok)

/-- The top-level `parser`: ordered choice over the five statement forms. -/
def pTop (fuel : Nat) : Parser Ast :=
  palt (pFetch fuel)
    (palt (pSelect fuel) (palt (pCreate fuel) (palt (pGetConfig fuel) pUpdateConfig)))

/-- `tryParse`: run the top-level parser and require the whole input to be
consumed. -/
def kqlParse (s : String) : Option Ast :=
  match pTop (s.length + 1) s.data with
  | some (a, []) => some a
  | _ => none

/-! ## Semantic compiler (`parseSelect` and helpers)

The compiler walks the `where` list of a `select` AST and accumulates a
spatial-engine (tile38) command and a record-service (metabase) parameter
map, then dispatches on the statement's primary database name.  Remote
interactions are recorded as an ordered list of `Call` events; responses
come from an `Env` oracle. -/

/-- Errors thrown by the compiler: the semantic errors of the `cast_to`
block (`throw new Error(...)` in the source) and JS `TypeError`s raised by
method calls on unsuitable values. -/
inductive Err : Type
  | semanticError (msg : String)
  | typeError (msg : String)
deriving DecidableEq

/-- A range bound: `-inf`, `+inf`, or a number. -/
inductive RB : Type
  | ninf
  | pinf
  | val (q : ℚ)

/-- A rendered spatial-engine condition clause (a string in the source,
kept structured here): either a numeric range `where key lo hi` or a
membership `wherein key count items` clause.  A `none` item stands for a
JS `undefined` produced by a failed enumeration/registry lookup. -/
inductive Clause : Type
  | range (key : String) (lo hi : RB)
  | wherein (key : String) (count : Nat) (items : List (Option String))

/-- One element of the assembled spatial command array (the source builds
an array of strings/values and joins it with spaces).  `undef` stands for
a JS array hole / `undefined` entry. -/
inductive CTok : Type
  | s (x : String)
  | n (q : ℚ)
  | v (val : Value)
  | undef
  | cl (c : Clause)

/-- Remote calls issued during one compilation, in order.  The first three
are resolution calls (service registry, hierarchical area lookup, join
data fetch); the last three are the backend calls that issue the compiled
query (spatial-engine registration, spatial-engine query, record-service
query). -/
inductive Call : Type
  | services
  | areaLookup (query : String)
  | joinFetch (params : List (String × Value))
  | registerAdd (params : List (String × Value)) (idField geometry : Value)
  | tile38Query (command : List CTok) (filter : Value)
  | metabaseQuery (params : List (String × Value))

/-- Classification of `Call` events: `true` exactly for the calls that
issue a compiled query to a backend (spec §6: `SpatialEngine.register`,
`SpatialEngine.query`, `RecordService.query` as final dispatch), `false`
for the resolution calls (registry fetch, area lookups, join-data fetch). -/
def isBackendCall : Call → Bool
  | Call.registerAdd _ _ _ => true
  | Call.tile38Query _ _ => true
  | Call.metabaseQuery _ => true
  | _ => false

/-- Oracle for the responses of remote calls.  `getAdminLevel` (the
hierarchical area resolution defined in the source) is abstracted as
`adminResolve`: the list of area-lookup queries it issues plus the
resolved id returned by `admin.getAdminId`, since no claim depends on its
internals. -/
structure Env : Type where
  services : String → Option String
  adminResolve : List Value → List String × Option Value
  joinRows : List (List (String × Value))
  registerKey : String

/-- The `tile38Query` accumulator: `head` is a sparse two-slot array
(`head[0]` the verb, `head[1]` the target id). -/
structure Tile38Query : Type where
  head0 : Option CTok := none
  head1 : Option CTok := none
  conditions : List Clause := []
  location : List CTok := []
  filter : Value := Value.obj []

/-- The full accumulation state of one compilation: the spatial command
accumulator, the record-service parameter map (`metabaseQuery` in the
source) and the ordered list of calls issued so far. -/
structure CompState : Type where
  tq : Tile38Query := {}
  mq : List (String × Value) := []
  calls : List Call := []

/-- Rendering of the sparse `head` array by `join`: a hole in `head[0]`
with `head[1]` set renders as an empty entry. -/
def headList (tq : Tile38Query) : List CTok :=
  match tq.head0, tq.head1 with
  | none, none => []
  | some v, none => [v]
  | none, some i => [CTok.undef, i]
  | some v, some i => [v, i]

/-- JS `list[0] = x`: overwrite index 0, extending an empty array. -/
def jsSetIdx0 (l : List CTok) (x : CTok) : List CTok :=
  match l with
  | [] => [x]
  | _ :: t => x :: t

/-- `statusToNumber` from the source. -/
def statusToNumber (status : String) : Option Nat :=
  match status.toLower.trim with
  | "online" => some 1
  | "busy" => some 2
  | "offline" => some 3
  | _ => none

/-- `orderStatusToNumber` from the source. -/
def orderStatusToNumber (status : String) : Option Nat :=
  match status.toLower.trim with
  | "idle" => some 1
  | "assigning" => some 2
  | "accepted" => some 3
  | "in_process" => some 4
  | "completed" => some 5
  | "failed" => some 6
  | _ => none

/-- `str2Number` from the source: concatenate the character codes of a
string. -/
def str2Number (str : String) : String :=
  String.join (str.data.map (fun c => toString c.toNat))

/-- JS string coercion of a value, as used by `Array.prototype.join`
(enough fidelity for the values exercised by the claims; JS prints
non-integral numbers in decimal notation where `ℚ` prints a fraction). -/
def jsValueString : Value → String
  | Value.null => ""
  | Value.bool b => toString b
  | Value.num q => toString q
  | Value.str s => s
  | Value.obj _ => "[object Object]"
  | Value.fn _ _ => "[object Object]"
  | Value.arr vs => String.intercalate "," (vs.map jsValueStringItem)
where
  jsValueStringItem : Value → String
    | Value.null => ""
    | Value.bool b => toString b
    | Value.num q => toString q
    | Value.str s => s
    | _ => "[object Object]"

/-- JS falsiness of the value read from the parameter map (`undefined`,
`null`, `false`, `0` and the empty string are falsy). -/
def isFalsy : Option Value → Bool
  | none => true
  | some Value.null => true
  | some (Value.bool false) => true
  | some (Value.num q) => q = 0
  | some (Value.str s) => s = ""
  | some _ => false

def tile38FnKeys : List String := ["within", "nearby", "scan", "intersects", "search"]

/-- All string elements of an array value, or a `TypeError` when an
element is not a string (the source calls `.toUpperCase()` /
`.toLowerCase()` on each element, which throws for non-strings). -/
def stringElems : List Value → Option (List String)
  | [] => some []
  | Value.str s :: rest => (stringElems rest).map (fun ss => s :: ss)
  | _ => none

/-- The record-service branch at the bottom of the per-condition loop:
`metabaseQuery[key] = value`, with a condition keyed `id` stored under
`cardid`; aliases outside the recognized record-service set leave the
state unchanged. -/
def mStep (st : CompState) (al key : String) (value : Value) : CompState :=
  if al ∈ ["m", "metabase", "u", "url"] then
    if key = "id" then { st with mq := jsObjInsert st.mq "cardid" value }
    else { st with mq := jsObjInsert st.mq key value }
  else st

/-- One iteration of the `for (const condition of ast.where)` loop of
`parseSelect`.  Returns the new state, or the state at the time a JS
exception is thrown together with the error. -/
def stepCondition (env : Env) (dbName : String) (st : CompState) (c : Cond) :
    CompState × Option Err :=
  let key := c.left.key
  let al := c.left.alias_.getD dbName
  let value := c.right
  if al = "t" ∨ al = "tile38" ∨ key ∈ tile38FnKeys then
    if key ∈ tile38FnKeys then
      let st := { st with tq.head0 := some (CTok.s key) }
      match value with
      | Value.fn fnName args =>
        let st := { st with tq.location := jsSetIdx0 st.tq.location (CTok.s fnName) }
        match fnName with
        | "get" =>
          let (qs, idOpt) := env.adminResolve args
          ({ st with
              calls := st.calls ++ qs.map Call.areaLookup,
              tq.location := st.tq.location ++
                [match idOpt with | some v => CTok.v v | none => CTok.undef] }, none)
        | "point" =>
          ({ st with tq.location := st.tq.location ++ args.map CTok.v }, none)
        | "bounds" =>
          ({ st with tq.location := st.tq.location ++ args.map CTok.v }, none)
        | _ => (st, none)
      | _ => (st, none)
    else if key = "id" then
      ({ st with tq.head1 := some (CTok.v value) }, none)
    else if key = "status" then
      match value with
      | Value.arr vs =>
        match stringElems vs with
        | some ss =>
          ({ st with tq.conditions := st.tq.conditions ++
              [Clause.wherein "status" vs.length
                (ss.map (fun s => (statusToNumber s).map toString))] }, none)
        | none => (st, some (Err.typeError "toLowerCase is not a function"))
      | _ => (st, some (Err.typeError "value.map is not a function"))
    else
      let st1 := if key = "filter" then { st with tq.filter := value } else st
      if key = "service" then
        match value with
        | Value.arr vs =>
          match stringElems vs with
          | some ss =>
            ({ st1 with tq.conditions := st1.tq.conditions ++
                [Clause.wherein "service" vs.length
                  (ss.map (fun s => env.services s.toUpper.trim))] }, none)
          | none => (st1, some (Err.typeError "toUpperCase is not a function"))
        | _ => (st1, some (Err.typeError "value.map is not a function"))
      else
        match value with
        | Value.arr vs =>
          if key = "order_status" then
            match stringElems vs with
            | some ss =>
              ({ st1 with tq.conditions := st1.tq.conditions ++
                  [Clause.wherein "order_status" vs.length
                    (ss.map (fun s => (orderStatusToNumber s).map toString))] }, none)
            | none => (st1, some (Err.typeError "toLowerCase is not a function"))
          else
            ({ st1 with tq.conditions := st1.tq.conditions ++
                [Clause.wherein key vs.length
                  (vs.map (fun v => some (jsValueString v)))] }, none)
        | Value.num q =>
          let st2 :=
            match c.operator with
            | "=" => { st1 with tq.conditions := st1.tq.conditions ++
                [Clause.range key (RB.val q) (RB.val q)] }
            | ">" => { st1 with tq.conditions := st1.tq.conditions ++
                [Clause.range key (RB.val q) RB.pinf] }
            | ">=" => { st1 with tq.conditions := st1.tq.conditions ++
                [Clause.range key (RB.val (q - 1)) RB.pinf] }
            | "<" => { st1 with tq.conditions := st1.tq.conditions ++
                [Clause.range key RB.ninf (RB.val q)] }
            | "<=" => { st1 with tq.conditions := st1.tq.conditions ++
                [Clause.range key RB.ninf (RB.val (q - 1))] }
            | _ => st1
          (mStep st2 al key value, none)
        | _ => (mStep st1 al key value, none)
  else
    (mStep st al key value, none)

/-- The whole condition loop, stopping at the first thrown error. -/
def runSteps (env : Env) (dbName : String) : List Cond → CompState → CompState × Option Err
  | [], st => (st, none)
  | c :: cs, st =>
    match stepCondition env dbName st c with
    | (st', none) => runSteps env dbName cs st'
    | (st', some e) => (st', some e)

/-- Short-circuiting stage composition (a thrown error skips the rest of
the pipeline). -/
def andThenStage (r : CompState × Option Err) (f : CompState → CompState × Option Err) :
    CompState × Option Err :=
  match r with
  | (st, none) => f st
  | (st, some e) => (st, some e)

/-- The `if (ast.join)` block: fetch the record-service rows for the
accumulated parameter map, locate the spatial-side and record-side keys of
the join condition, turn each row's join-key value into a numeric
surrogate via `str2Number`, and add a `wherein` clause. -/
def joinStage (env : Env) (ast : SelectAst) (st : CompState) : CompState × Option Err :=
  match ast.join with
  | none => (st, none)
  | some jc =>
    let st := { st with calls := st.calls ++ [Call.joinFetch st.mq] }
    let vals := [jc.left, jc.right]
    match vals.find? (fun k => k.alias_ = some "t" ∨ k.alias_ = some "tile38"),
          vals.find? (fun k => k.alias_ = some "m" ∨ k.alias_ = some "metabase") with
    | some tItem, some mItem =>
      let ids := env.joinRows.map (fun row =>
        match jsObjGet row mItem.key with
        | some v => str2Number (jsValueString v)
        | none => str2Number "undefined")
      ({ st with tq.conditions := st.tq.conditions ++
          [Clause.wherein tItem.key ids.length (ids.map some)] }, none)
    | _, _ =>
      (st, some (Err.typeError "cannot read properties of undefined"))

/-- The `cast_to` block: remove `cast_to`, read and remove the mandatory
companions `id_field` and `geometry`, throw when either is missing
(falsy), otherwise issue the registration call and overwrite the command's
target-id slot with the returned resource key. -/
def castStage (env : Env) (st : CompState) : CompState × Option Err :=
  if jsObjHas st.mq "cast_to" then
    let mq1 := jsObjDelete st.mq "cast_to"
    let idField := jsObjGet mq1 "id_field"
    let geometry := jsObjGet mq1 "geometry"
    let mq2 := jsObjDelete (jsObjDelete mq1 "id_field") "geometry"
    if isFalsy idField then (st, some (Err.semanticError "missing id_field field"))
    else if isFalsy geometry then (st, some (Err.semanticError "missing geometry field"))
    else
      ({ st with
          mq := mq2,
          calls := st.calls ++
            [Call.registerAdd mq2 (idField.getD Value.null) (geometry.getD Value.null)],
          tq.head1 := some (CTok.s env.registerKey) }, none)
  else (st, none)

/-- Final dispatch: spatial-engine names issue the assembled command
(`head` then conditions then a `limit` clause defaulting to 100 then the
location arguments) with the opaque filter; record-service names issue the
parameter map. -/
def finalStage (ast : SelectAst) (st : CompState) : CompState :=
  let st1 :=
    if ast.database.name = "t" ∨ ast.database.name = "tile38" then
      { st with calls := st.calls ++
          [Call.tile38Query
            (headList st.tq ++ st.tq.conditions.map CTok.cl ++
              [CTok.s "limit", CTok.n (ast.limit.getD 100)] ++ st.tq.location)
            st.tq.filter] }
    else st
  if ast.database.name = "m" ∨ ast.database.name = "metabase" then
    { st1 with calls := st1.calls ++ [Call.metabaseQuery st1.mq] }
  else st1

/-- The initial accumulation state: the service-registry fetch has been
issued, both accumulators are empty. -/
def initState : CompState := { calls := [Call.services] }

/-- `parseSelect`: the whole compilation of a `select` AST, returning the
ordered list of calls issued and the error, if one was thrown.  A `null`
`where` returns immediately, before the service-registry fetch. -/
def parseSelect (env : Env) (ast : SelectAst) : List Call × Option Err :=
  match ast.whereConds with
  | none => ([], none)
  | some conds =>
    let r :=
      andThenStage (andThenStage (runSteps env ast.database.name conds initState)
        (joinStage env ast)) (castStage env)
    match r with
    | (st, none) => ((finalStage ast st).calls, none)
    | (st, some e) => (st.calls, some e)

/-- A trivial oracle environment used for concrete evaluations: an empty
service registry, an area resolver that issues no lookups and resolves
nothing, no join rows, and a fixed registration key. -/
def env0 : Env := ⟨fun _ => none, fun _ => ([], none), [], "rk"⟩

/-- The AST of `select * from m join <db> on t.id = m.order_id` (the same
for every known database name `<db>`). -/
def joinSampleAst : Ast :=
  Ast.select (SelectAst.mk "select" (DbRef.mk "m" none)
    (some (JoinCond.mk (Key.mk (some "t") "id") (Key.mk (some "m") "order_id"))) none none)

/-! ## Helper lemmas -/

lemma escValue_ne_u (c : Char) (rest : List Char) (hc : c ≠ 'u') :
    escValue (c :: rest) = some (escMap c, rest) := by
  rcases rest with _ | ⟨a, _ | ⟨b, _ | ⟨d, _ | ⟨e, r⟩⟩⟩⟩ <;> simp [escValue, hc]

/-- Whenever the characters after the leftmost backslash match the escape
regex with replacement `e` and remainder `rem`, `interpretEscapes`
replaces exactly that first match and leaves `rem` untouched. -/
lemma interpretEscapesL_first (pre suffix : List Char) (e : Char) (rem : List Char)
    (hpre : '\\' ∉ pre) (hesc : escValue suffix = some (e, rem)) :
    interpretEscapesL (pre ++ '\\' :: suffix) = pre ++ e :: rem := by
  induction pre with
  | nil => simp [interpretEscapesL, hesc]
  | cons p ps ih =>
    simp only [List.mem_cons, not_or] at hpre
    simp [interpretEscapesL, Ne.symm hpre.1, ih hpre.2]

lemma pJoin_dbname (d : String) (hd : d ∈ kqlDatabaseNames) (rest : List Char) :
    pJoin ("join ".data ++ d.data ++ ' ' :: rest) = pJoin ("join t ".data ++ rest) := by
  simp only [kqlDatabaseNames, List.mem_cons, List.not_mem_nil, or_false] at hd
  rcases hd with rfl | rfl | rfl | rfl | rfl | rfl <;> rfl

lemma kqlParse_join_sample (d : String) (hd : d ∈ kqlDatabaseNames) :
    kqlParse ("select * from m join " ++ d ++ " on t.id = m.order_id") = some joinSampleAst := by
  simp only [kqlDatabaseNames, List.mem_cons, List.not_mem_nil, or_false] at hd
  rcases hd with rfl | rfl | rfl | rfl | rfl | rfl <;> rfl

lemma mStep_calls (st : CompState) (al key : String) (v : Value) :
    (mStep st al key v).calls = st.calls := by
  unfold mStep
  repeat' split
  all_goals rfl

lemma nonbackend_mono {l : List Call} {l2 : List Call}
    (h : ∀ x ∈ l, isBackendCall x = false)
    (h2 : ∀ x ∈ l2, isBackendCall x = false) :
    ∀ x ∈ l ++ l2, isBackendCall x = false := by
  intro x hx
  rcases List.mem_append.1 hx with h' | h'
  · exact h x h'
  · exact h2 x h'

lemma area_nonbackend (qs : List String) :
    ∀ x ∈ qs.map Call.areaLookup, isBackendCall x = false := by
  intro x hx
  obtain ⟨q, _, rfl⟩ := List.mem_map.1 hx
  rfl

/-- One loop iteration only adds resolution calls (area lookups), never a
backend call. -/
lemma step_calls_nonbackend (env : Env) (db : String) (st : CompState) (c : Cond)
    (h : ∀ x ∈ st.calls, isBackendCall x = false) :
    ∀ x ∈ ((stepCondition env db st c).1).calls, isBackendCall x = false := by
  unfold stepCondition
  dsimp only
  repeat' split
  all_goals simp only [mStep_calls]
  all_goals first
    | exact h
    | (exact nonbackend_mono h (area_nonbackend _))

lemma runSteps_calls_nonbackend (env : Env) (db : String) (conds : List Cond) :
    ∀ (st : CompState), (∀ x ∈ st.calls, isBackendCall x = false) →
    ∀ x ∈ ((runSteps env db conds st).1).calls, isBackendCall x = false := by
  induction conds with
  | nil => intro st h; exact h
  | cons c cs ih =>
    intro st h
    unfold runSteps
    have hstep := step_calls_nonbackend env db st c h
    rcases hs : stepCondition env db st c with ⟨st', e⟩
    rw [hs] at hstep
    cases e with
    | none => exact ih st' hstep
    | some e => exact hstep

lemma joinStage_calls (env : Env) (ast : SelectAst) (st : CompState) :
    ((joinStage env ast st).1).calls = st.calls ∨
    ((joinStage env ast st).1).calls = st.calls ++ [Call.joinFetch st.mq] := by
  unfold joinStage
  split
  · exact Or.inl rfl
  · simp only []
    split
    · exact Or.inr rfl
    · exact Or.inr rfl

lemma joinStage_calls_nonbackend (env : Env) (ast : SelectAst) (st : CompState)
    (h : ∀ x ∈ st.calls, isBackendCall x = false) :
    ∀ x ∈ ((joinStage env ast st).1).calls, isBackendCall x = false := by
  rcases joinStage_calls env ast st with hc | hc <;> rw [hc]
  · exact h
  · refine nonbackend_mono h ?_
    intro x hx
    simp only [List.mem_singleton] at hx
    subst hx
    rfl

/-- Through the condition loop and the join stage, every issued call is a
resolution call. -/
lemma pipe_calls_nonbackend (env : Env) (ast : SelectAst) (conds : List Cond) (st : CompState)
    (hpipe : andThenStage (runSteps env ast.database.name conds initState)
        (joinStage env ast) = (st, none)) :
    ∀ x ∈ st.calls, isBackendCall x = false := by
  have hinit : ∀ x ∈ initState.calls, isBackendCall x = false := by
    intro x hx
    simp only [initState, List.mem_singleton] at hx
    subst hx
    rfl
  have hrun := runSteps_calls_nonbackend env ast.database.name conds initState hinit
  unfold andThenStage at hpipe
  rcases hr : runSteps env ast.database.name conds initState with ⟨st1, e1⟩
  rw [hr] at hpipe hrun
  cases e1 with
  | none =>
    have hj := joinStage_calls_nonbackend env ast st1 hrun
    simp only at hpipe
    rw [hpipe] at hj
    exact hj
  | some e => simp at hpipe

lemma jsObjGet_delete_ne (o : List (String × Value)) (k k' : String) (h : k ≠ k') :
    jsObjGet (jsObjDelete o k') k = jsObjGet o k := by
  induction o with
  | nil => rfl
  | cons p ps ih =>
    unfold jsObjGet jsObjDelete at *
    by_cases hp : p.1 = k'
    · rw [List.filter_cons_of_neg, List.find?_cons_of_neg]
      · exact ih
      · simp [hp, Ne.symm h]
      · simp [hp]
    · rw [List.filter_cons_of_pos]
      · by_cases hk : p.1 = k
        · rw [List.find?_cons_of_pos, List.find?_cons_of_pos] <;> simp [hk]
        · rw [List.find?_cons_of_neg, List.find?_cons_of_neg]
          · exact ih
          · simp [hk]
          · simp [hk]
      · simp [hp]

/-! ## Claim theorems -/

/-- Claim C1: whenever the record-service parameter map accumulated through
the condition loop and the join stage contains a `cast_to` entry but lacks
`id_field` or lacks `geometry`, the compilation fails with a fatal
SemanticError (one of the two `missing ... field` errors), it produces no
output, and no backend call (registration, spatial query, or final
record-service query) has been issued. -/
theorem c1_cast_missing (env : Env) (ast : SelectAst) (conds : List Cond) (st : CompState)
    (hw : ast.whereConds = some conds)
    (hpipe : andThenStage (runSteps env ast.database.name conds initState)
        (joinStage env ast) = (st, none))
    (hcast : jsObjHas st.mq "cast_to" = true)
    (hmiss : jsObjGet st.mq "id_field" = none ∨ jsObjGet st.mq "geometry" = none) :
    (parseSelect env ast = (st.calls, some (Err.semanticError "missing id_field field")) ∨
     parseSelect env ast = (st.calls, some (Err.semanticError "missing geometry field"))) ∧
    ∀ x ∈ st.calls, isBackendCall x = false := by
  refine ⟨?_, pipe_calls_nonbackend env ast conds st hpipe⟩
  have hps : parseSelect env ast = (match castStage env st with
      | (st2, none) => ((finalStage ast st2).calls, none)
      | (st2, some e) => (st2.calls, some e)) := by
    unfold parseSelect
    rw [hw]
    simp only []
    rw [hpipe]
    rfl
  rw [hps]
  unfold castStage
  rw [if_pos hcast]
  simp only []
  rcases hmiss with hm | hm
  · left
    rw [if_pos (show isFalsy (jsObjGet (jsObjDelete st.mq "cast_to") "id_field") = true by
      rw [jsObjGet_delete_ne _ _ _ (by decide), hm]; rfl)]
  · by_cases hif : isFalsy (jsObjGet (jsObjDelete st.mq "cast_to") "id_field") = true
    · left
      rw [if_pos hif]
    · right
      rw [if_neg hif, if_pos (show isFalsy (jsObjGet (jsObjDelete st.mq "cast_to") "geometry") = true by
        rw [jsObjGet_delete_ne _ _ _ (by decide), hm]; rfl)]

/-- Witness for C1: `select * from m where m.cast_to = 't'` fails with the
`missing id_field field` SemanticError after only the service-registry
fetch. -/
theorem c1_witness :
    ((SelectAst.mk "select" (DbRef.mk "m" none) none
        (some [Cond.mk (Key.mk (some "m") "cast_to") "=" (Value.str "t")]) none).whereConds =
      some [Cond.mk (Key.mk (some "m") "cast_to") "=" (Value.str "t")]) ∧
    (parseSelect env0 (SelectAst.mk "select" (DbRef.mk "m" none) none
        (some [Cond.mk (Key.mk (some "m") "cast_to") "=" (Value.str "t")]) none) =
        ([Call.services], some (Err.semanticError "missing id_field field")) ∨
     parseSelect env0 (SelectAst.mk "select" (DbRef.mk "m" none) none
        (some [Cond.mk (Key.mk (some "m") "cast_to") "=" (Value.str "t")]) none) =
        ([Call.services], some (Err.semanticError "missing geometry field"))) := by
  refine ⟨rfl, ?_⟩
  have h := c1_cast_missing env0
    (SelectAst.mk "select" (DbRef.mk "m" none) none
      (some [Cond.mk (Key.mk (some "m") "cast_to") "=" (Value.str "t")]) none)
    [Cond.mk (Key.mk (some "m") "cast_to") "=" (Value.str "t")]
    (CompState.mk {} [("cast_to", Value.str "t")] [Call.services])
    rfl rfl rfl (Or.inl rfl)
  exact h.1

/-- Counterexample to C2 as stated: the condition `x.age = 3` (alias `x`
is not a spatial-engine identity and `age` is not a spatial-function key)
does **not** become a record-service parameter entry — the compilation of
`select * from m where x.age = 3` issues the final record-service query
with an empty parameter map. -/
theorem c2_counterexample :
    parseSelect env0 (SelectAst.mk "select" (DbRef.mk "m" none) none
        (some [Cond.mk (Key.mk (some "x") "age") "=" (Value.num 3)]) none) =
      ([Call.services, Call.metabaseQuery []], none) ∧
    jsObjGet [] "age" ≠ some (Value.num 3) :=
  ⟨rfl, by simp [jsObjGet]⟩

/-- Claim C2 (amended): a condition whose resolved alias (explicit, or the
statement's primary database name when omitted) is one of the
record-service identities `m`, `metabase`, `u`, `url` and whose bare key is
not a spatial-function key becomes a parameter entry `key : value` in the
record-service parameter map, a condition keyed `id` being stored under
`cardid` instead; conditions whose alias resolves to none of the
recognized identities are dropped. -/
theorem c2_record_param_entry (env : Env) (dbName : String) (st : CompState)
    (al : Option String) (key : String) (op : String) (v : Value)
    (halias : al.getD dbName ∈ (["m", "metabase", "u", "url"] : List String))
    (hfn : key ∉ tile38FnKeys) :
    stepCondition env dbName st (Cond.mk (Key.mk al key) op v) =
      ({ st with mq := jsObjInsert st.mq (if key = "id" then "cardid" else key) v }, none) := by
  simp only [List.mem_cons, List.not_mem_nil, or_false] at halias
  rcases halias with h | h | h | h <;>
    simp [stepCondition, mStep, h, hfn] <;>
    cases v <;> by_cases hid : key = "id" <;> simp [hid]

/-- Witness for C2: the bare condition `age = 3` under primary database
`m` is inserted as the parameter entry `age : 3`. -/
theorem c2_witness :
    stepCondition env0 "m" initState (Cond.mk (Key.mk none "age") "=" (Value.num 3)) =
      ({ initState with mq := [("age", Value.num 3)] }, none) := by
  have h := c2_record_param_entry env0 "m" initState none "age" "=" (Value.num 3)
    (by decide) (by decide)
  rw [h]
  rfl

/-- Claim C3: a spatial-engine-dispatched condition with a non-special key
and a numeric right value renders a range clause determined by the
operator: `=` gives `[v, v]`, `>` gives `[v, +inf]`, `>=` gives
`[v-1, +inf]` (inclusive lower bound by decrementing), `<` gives
`[-inf, v]`, `<=` gives `[-inf, v-1]`. -/
theorem c3_numeric_range (env : Env) (dbName : String) (st : CompState)
    (al : Option String) (key : String) (q : ℚ) (op : String)
    (halias : al.getD dbName = "t" ∨ al.getD dbName = "tile38")
    (hfn : key ∉ tile38FnKeys) (hid : key ≠ "id") (hstatus : key ≠ "status")
    (hfilter : key ≠ "filter") (hservice : key ≠ "service") :
    (op = "=" → stepCondition env dbName st (Cond.mk (Key.mk al key) op (Value.num q)) =
      ({ st with tq.conditions := st.tq.conditions ++
          [Clause.range key (RB.val q) (RB.val q)] }, none)) ∧
    (op = ">" → stepCondition env dbName st (Cond.mk (Key.mk al key) op (Value.num q)) =
      ({ st with tq.conditions := st.tq.conditions ++
          [Clause.range key (RB.val q) RB.pinf] }, none)) ∧
    (op = ">=" → stepCondition env dbName st (Cond.mk (Key.mk al key) op (Value.num q)) =
      ({ st with tq.conditions := st.tq.conditions ++
          [Clause.range key (RB.val (q - 1)) RB.pinf] }, none)) ∧
    (op = "<" → stepCondition env dbName st (Cond.mk (Key.mk al key) op (Value.num q)) =
      ({ st with tq.conditions := st.tq.conditions ++
          [Clause.range key RB.ninf (RB.val q)] }, none)) ∧
    (op = "<=" → stepCondition env dbName st (Cond.mk (Key.mk al key) op (Value.num q)) =
      ({ st with tq.conditions := st.tq.conditions ++
          [Clause.range key RB.ninf (RB.val (q - 1))] }, none)) := by
  refine ⟨?_, ?_, ?_, ?_, ?_⟩ <;> rintro rfl <;> rcases halias with h | h <;>
    simp [stepCondition, mStep, h, hfn, hid, hstatus, hfilter, hservice]

/-- Witness for C3: `age >= 18` compiles to the clause `where age 17 +inf`. -/
theorem c3_witness :
    stepCondition env0 "t" initState (Cond.mk (Key.mk none "age") ">=" (Value.num 18)) =
      ({ initState with tq.conditions := [Clause.range "age" (RB.val 17) RB.pinf] }, none) := by
  have h := (c3_numeric_range env0 "t" initState none "age" 18 ">=" (Or.inl rfl)
    (by decide) (by decide) (by decide) (by decide) (by decide)).2.2.1 rfl
  rw [h]
  norm_num [initState]

/-- Counterexample to C4 as stated: parsing the string literal containing
the two escapes `\n` and `\t` interprets only the first one — the result
keeps a literal backslash-t, so not every escape sequence is interpreted. -/
theorem c4_counterexample :
    pStringTok "\"\\n\\t\"".data = some ("\n\\t", []) ∧ ("\n\\t" : String) ≠ "\n\t" :=
  ⟨rfl, by decide⟩

/-- Claim C4 (amended): `interpretEscapes` interprets only the leftmost
escape sequence of the string: a backslash followed by a non-`u`
character maps through the escape table (`b,f,n,r,t` to control
characters, anything else passes through literally), and a backslash
followed by `u` and four hex digits becomes that code point; everything
after the first match, including further escape sequences, is left
unchanged. -/
theorem c4_first_escape (pre : List Char) (hpre : '\\' ∉ pre) :
    (∀ (c : Char) (rest : List Char), c ≠ 'u' →
      interpretEscapesL (pre ++ '\\' :: c :: rest) = pre ++ escMap c :: rest) ∧
    (∀ (h1 h2 h3 h4 : Char) (rest : List Char),
      isHexChar h1 = true → isHexChar h2 = true → isHexChar h3 = true → isHexChar h4 = true →
      interpretEscapesL (pre ++ '\\' :: 'u' :: h1 :: h2 :: h3 :: h4 :: rest) =
        pre ++ Char.ofNat (((hexVal h1 * 16 + hexVal h2) * 16 + hexVal h3) * 16 + hexVal h4)
          :: rest) := by
  constructor
  · intro c rest hc
    exact interpretEscapesL_first pre _ _ _ hpre (escValue_ne_u c rest hc)
  · intro h1 h2 h3 h4 rest hh1 hh2 hh3 hh4
    exact interpretEscapesL_first pre _ _ _ hpre (by simp [escValue, hh1, hh2, hh3, hh4])

/-- Witness for C4: in `a\n\t` the first escape becomes a newline and the
second stays a literal backslash-t; in `A\n` the unicode escape
becomes `A` and the following escape stays a literal backslash-n. -/
theorem c4_witness :
    ('\\' ∉ (['a'] : List Char)) ∧
    interpretEscapesL ('a' :: '\\' :: 'n' :: '\\' :: 't' :: []) =
      'a' :: '\n' :: '\\' :: 't' :: [] ∧
    interpretEscapesL ('\\' :: 'u' :: '0' :: '0' :: '4' :: '1' :: '\\' :: 'n' :: []) =
      'A' :: '\\' :: 'n' :: [] := by
  refine ⟨by decide, ?_, ?_⟩
  · exact (c4_first_escape ['a'] (by decide)).1 'n' ('\\' :: 't' :: []) (by decide)
  · have h := (c4_first_escape [] (by decide)).2 '0' '0' '4' '1' ('\\' :: 'n' :: [])
      (by decide) (by decide) (by decide) (by decide)
    simpa using h

/-- Claim C5: the string grammar does not require matching quote
characters — the literal `"abc'` (opened with a double quote, closed with
a single quote) parses successfully to the content `abc`. -/
theorem c5_quote_mismatch : pStringTok "\"abc'".data = some ("abc", []) := rfl

/-- Claim C6: the array grammar treats `[` and `(` identically — for every
input tail the array parser behaves the same after either opening bracket,
and in particular the literals written as brackets and as parentheses
parse to the identical ordered two-element sequence of strings. -/
theorem c6_array_brackets :
    (∀ (fuel fuel2 : Nat) (rest : List Char),
      pArrayWith fuel (pValue fuel2) ('[' :: rest) =
      pArrayWith fuel (pValue fuel2) ('(' :: rest)) ∧
    pValue 20 "['a','b']".data = some (Value.arr [Value.str "a", Value.str "b"], []) ∧
    pValue 20 "('a','b')".data = some (Value.arr [Value.str "a", Value.str "b"], []) :=
  ⟨fun _ _ _ => rfl, rfl, rfl⟩

/-- Claim C7: when the primary database name is a spatial-engine name, the
issued command is exactly `head`, then the accumulated condition clauses
in order, then a `limit` clause whose value defaults to 100, then the
location arguments, and it is sent together with the opaque filter
object. -/
theorem c7_spatial_assembly (env : Env) (ast : SelectAst) (conds : List Cond) (st : CompState)
    (hw : ast.whereConds = some conds)
    (hdb : ast.database.name = "t" ∨ ast.database.name = "tile38")
    (hpipe : andThenStage (andThenStage (runSteps env ast.database.name conds initState)
        (joinStage env ast)) (castStage env) = (st, none)) :
    parseSelect env ast =
      (st.calls ++ [Call.tile38Query
          (headList st.tq ++ st.tq.conditions.map CTok.cl ++
            [CTok.s "limit", CTok.n (ast.limit.getD 100)] ++ st.tq.location)
          st.tq.filter], none) := by
  unfold parseSelect
  rw [hw]
  simp only []
  rw [hpipe]
  unfold finalStage
  rcases hdb with h | h <;> rw [h] <;> simp

/-- Witness for C7: a `select * from t` with a `nearby in point(...)`
condition and `limit 10` issues the spatial query `nearby limit 10 point
current_points 1000` with an empty filter. -/
theorem c7_witness :
    parseSelect env0 (SelectAst.mk "select" (DbRef.mk "t" none) none
        (some [Cond.mk (Key.mk none "nearby") "in"
          (Value.fn "point" [Value.str "current_points", Value.num 1000])]) (some 10)) =
      ([Call.services] ++ [Call.tile38Query
          ([CTok.s "nearby"] ++ [CTok.s "limit", CTok.n 10] ++
            [CTok.s "point", CTok.v (Value.str "current_points"), CTok.v (Value.num 1000)])
          (Value.obj [])], none) :=
  c7_spatial_assembly env0
    (SelectAst.mk "select" (DbRef.mk "t" none) none
      (some [Cond.mk (Key.mk none "nearby") "in"
        (Value.fn "point" [Value.str "current_points", Value.num 1000])]) (some 10))
    [Cond.mk (Key.mk none "nearby") "in"
      (Value.fn "point" [Value.str "current_points", Value.num 1000])]
    (CompState.mk
      (Tile38Query.mk (some (CTok.s "nearby")) none []
        [CTok.s "point", CTok.v (Value.str "current_points"), CTok.v (Value.num 1000)]
        (Value.obj []))
      [] [Call.services])
    rfl (Or.inl rfl) rfl

/-- Claim C8: parsing is deterministic and idempotent — two parse calls on
identical input text yield structurally equal ASTs. -/
theorem c8_parse_deterministic (s : String) (a b : Ast)
    (h1 : kqlParse s = some a) (h2 : kqlParse s = some b) : a = b := by
  rw [h1] at h2
  exact Option.some.inj h2

/-- Witness for C8: two parses of `select * from tile38` agree. -/
theorem c8_witness :
    kqlParse "select * from tile38" =
      some (Ast.select (SelectAst.mk "select" (DbRef.mk "tile38" none) none none none)) ∧
    Ast.select (SelectAst.mk "select" (DbRef.mk "tile38" none) none none none) =
      Ast.select (SelectAst.mk "select" (DbRef.mk "tile38" none) none none none) :=
  ⟨rfl, c8_parse_deterministic "select * from tile38" _ _ rfl rfl⟩

/-- Claim C9: the database name between `join` and `on` is parsed and
discarded — the join-clause parser gives the same result for any two known
database names whatever follows, and replacing the name in a full select
statement with a join yields a structurally equal AST (only the join
condition's two keys reach the AST). -/
theorem c9_join_name_discarded (d1 d2 : String)
    (h1 : d1 ∈ kqlDatabaseNames) (h2 : d2 ∈ kqlDatabaseNames) :
    (∀ rest : List Char,
      pJoin ("join ".data ++ d1.data ++ ' ' :: rest) =
      pJoin ("join ".data ++ d2.data ++ ' ' :: rest)) ∧
    kqlParse ("select * from m join " ++ d1 ++ " on t.id = m.order_id") =
    kqlParse ("select * from m join " ++ d2 ++ " on t.id = m.order_id") :=
  ⟨fun rest => (pJoin_dbname d1 h1 rest).trans (pJoin_dbname d2 h2 rest).symm,
   (kqlParse_join_sample d1 h1).trans (kqlParse_join_sample d2 h2).symm⟩

/-- Witness for C9: swapping `tile38` for `u` in the join clause leaves
the parsed AST unchanged. -/
theorem c9_witness :
    ("tile38" ∈ kqlDatabaseNames ∧ "u" ∈ kqlDatabaseNames) ∧
    kqlParse ("select * from m join " ++ "tile38" ++ " on t.id = m.order_id") =
    kqlParse ("select * from m join " ++ "u" ++ " on t.id = m.order_id") :=
  ⟨⟨by decide, by decide⟩,
   (c9_join_name_discarded "tile38" "u" (by decide) (by decide)).2⟩

/-- Claim C10: compiling a select whose `where` field is null returns
immediately: no calls at all are issued (not even the service-registry
fetch), nothing is built, and no backend is queried, whatever the
database, join or limit. -/
theorem c10_null_where (env : Env) (ast : SelectAst) (h : ast.whereConds = none) :
    parseSelect env ast = ([], none) := by
  simp [parseSelect, h]

/-- Witness for C10: a where-less select over `t` with a limit compiles to
no calls and no error. -/
theorem c10_witness :
    (SelectAst.mk "select" (DbRef.mk "t" none) none none (some 5)).whereConds = none ∧
    parseSelect env0 (SelectAst.mk "select" (DbRef.mk "t" none) none none (some 5)) =
      ([], none) :=
  ⟨rfl, c10_null_where env0 _ rfl⟩

end KQL
